import Mathlib

/-!
Verification development for the Agilent 4UHV framed protocol layer of the
instrumentRs repository: checksum utility (`utils.rs`), payload encoders and
command packet builder (`cmd_package.rs`), and response packet parser
(`read_package.rs`).

Modelling conventions:
* Bytes are `Nat` values; where u8 overflow matters the source arithmetic is
  embedded with an explicit `% 256`.
* Rust slices are `List Nat`; a Rust slice expression `v[a..b]` becomes
  `(v.drop a).take (b - a)`.
* Fallible Rust functions returning `Result` become `Except InstrumentError _`.
* A Rust operation that can panic (out-of-bounds slice, contract violation)
  is embedded as an `Option`, with `none` marking the panic.
-/

namespace InstrumentRs

/-- Embedding of the `InstrumentError` variants used by the Agilent 4UHV
protocol layer (`instrumentRs/src/instrument.rs` plus the `PackageInvalid`
and `ChecksumInvalid` variants used by `read_package.rs`).
`PackageInvalid` carries the offending raw bytes (the source carries their
Debug rendering inside the message string). -/
inductive InstrumentError where
  | NotAcknowledged (response : String)
  | IntValueOutOfRange (value min max : Int)
  | InvalidArgument (msg : String)
  | ResponseParseError (msg : String)
  | PackageInvalid (offending : List Nat)
  | ChecksumInvalid
deriving DecidableEq, Repr

instance {ε α : Type} [DecidableEq ε] [DecidableEq α] :
    DecidableEq (Except ε α) := fun x y =>
  match x, y with
  | .ok a, .ok b =>
    if h : a = b then .isTrue (by rw [h])
    else .isFalse (by intro hh; cases hh; exact h rfl)
  | .ok _, .error _ => .isFalse (by intro hh; cases hh)
  | .error _, .ok _ => .isFalse (by intro hh; cases hh)
  | .error e, .error f =>
    if h : e = f then .isTrue (by rw [h])
    else .isFalse (by intro hh; cases hh; exact h rfl)

/-- One uppercase hexadecimal digit, as its ASCII code: `0..=9 ↦ '0'..='9'`,
`10..=15 ↦ 'A'..='F'`.  Component of Rust `format!("{:02X}", _)`. -/
def hexDigit (d : Nat) : Nat := if d < 10 then 48 + d else 55 + d

/-- Embedding of `utils::calculate_crc`: XOR-fold the bytes with seed 0 and
render the resulting byte as two uppercase hexadecimal ASCII characters
(Rust `format!("{:02X}", crc)`; for a `u8` value this is exactly the two
digits `crc / 16` and `crc % 16`).  Pure and total, no error case. -/
def calculate_crc (data : List Nat) : List Nat :=
  let crc := data.foldl (fun acc b => acc ^^^ b) 0
  [hexDigit (crc / 16), hexDigit (crc % 16)]

/-- The bare XOR fold (seed 0) underlying `calculate_crc`. -/
def xorFold (data : List Nat) : Nat := data.foldl (fun acc b => acc ^^^ b) 0

/-- Is this ASCII code an uppercase hexadecimal character (`0`-`9` or `A`-`F`)? -/
def isUpperHexDigit (c : Nat) : Prop := (48 ≤ c ∧ c ≤ 57) ∨ (65 ≤ c ∧ c ≤ 70)

instance (c : Nat) : Decidable (isUpperHexDigit c) := by
  unfold isUpperHexDigit
  infer_instance

/-- Numeric value of an uppercase hexadecimal ASCII character. -/
def hexVal (c : Nat) : Nat := if c ≤ 57 then c - 48 else c - 55

/-- Embedding of `cmd_package::Data`: the payload bytes of a data package. -/
structure Data where
  data_vec : List Nat
deriving DecidableEq, Repr

/-- Embedding of `impl From<bool> for Data`: `'1'` for true, `'0'` for false. -/
def Data.fromBool (value : Bool) : Data :=
  ⟨if value then [49] else [48]⟩

/-- Embedding of Rust `format!("{:06}", n).into_bytes()` for a non-negative
integer below `10^6` (the only values the encoder formats after its range
guard): the six decimal digits of `n`, zero-padded, as ASCII codes. -/
def formatNat6 (n : Nat) : List Nat :=
  [48 + n / 100000 % 10, 48 + n / 10000 % 10, 48 + n / 1000 % 10,
   48 + n / 100 % 10, 48 + n / 10 % 10, 48 + n % 10]

/-- Embedding of Rust `format!("{:06}", v).into_bytes()` for `v : i64` in the
encoder's guarded domain `-99999..=999999`: Rust zero-pads to width 6
counting the sign, so a negative value renders as `'-'` followed by the five
zero-padded decimal digits of its absolute value. -/
def formatI06 (v : Int) : List Nat :=
  if v < 0 then
    45 :: [48 + v.natAbs / 10000 % 10, 48 + v.natAbs / 1000 % 10,
           48 + v.natAbs / 100 % 10, 48 + v.natAbs / 10 % 10, 48 + v.natAbs % 10]
  else formatNat6 v.natAbs

/-- Embedding of `impl TryFrom<i64> for Data` (`cmd_package.rs`): reject
`value >= 1_000_000 || value <= -100_000` with `IntValueOutOfRange` carrying
the literals `min: -10_000, max: 100_000` exactly as the source writes them;
otherwise format the value as the 6-byte zero-padded field. -/
def Data.tryFromInt (value : Int) : Except InstrumentError Data :=
  if 1000000 ≤ value ∨ value ≤ -100000 then
    .error (.IntValueOutOfRange value (-10000) 100000)
  else
    .ok ⟨formatI06 value⟩

/-- Embedding of `impl TryFrom<&str> for Data` (`cmd_package.rs`), on the
string's UTF-8 bytes (`value.len()` in Rust is the byte length): reject if
longer than 48 bytes, reject if any byte is outside `0x20..=0x5F`, otherwise
pass the bytes through unchanged. -/
def Data.tryFromStr (value : List Nat) : Except InstrumentError Data :=
  if 48 < value.length then
    .error (.InvalidArgument
      ("String with length " ++ toString value.length ++
       " is too long. Maximum allowed length is 48."))
  else if !(value.all fun b => decide (32 ≤ b ∧ b ≤ 95)) then
    .error (.InvalidArgument
      ("String contains an invalid character. " ++
       "Only characters from ASCII space to underscore are allowed."))
  else
    .ok ⟨value⟩

/-- ASCII codes of a Lean string literal (used to state byte-exact examples). -/
def asciiBytes (s : String) : List Nat := s.data.map Char.toNat

/-- Embedding of `cmd_package::CommandType`. -/
inductive CommandType where
  | Read
  | Write
deriving DecidableEq, Repr

/-- The command code byte: `0x30` for read, `0x31` for write. -/
def CommandType.toByte : CommandType → Nat
  | .Read => 0x30
  | .Write => 0x31

/-- Embedding of Rust `format!("{:03}", win).into_bytes()` for `win ≤ 999`
(the only values the builder formats after its window guard): the three
decimal digits of `win`, zero-padded, as ASCII codes. -/
def format03 (win : Nat) : List Nat :=
  [48 + win / 100 % 10, 48 + win / 10 % 10, 48 + win % 10]

namespace CommandPackage

/-- Embedding of `CommandPackage::build_vec`: concatenate stx, address byte,
window digits, command byte, optional payload, etx and the 2 checksum bytes. -/
def build_vec (stx addr : Nat) (win : List Nat) (com : Nat)
    (data : Option Data) (etx : Nat) (crc : List Nat) : List Nat :=
  [stx, addr] ++ win ++ [com] ++
    (match data with
     | some d => d.data_vec
     | none => []) ++ [etx] ++ crc

/-- Embedding of `CommandPackage::new` followed by the `calculate_crc` /
`build_vec` calls it performs, returning the final transmit vector.
`none` marks the source's panic on `win > 999`.  The source computes
`0x80 + addr` on `u8`; overflow is embedded as `% 256` (release-build
wrapping; a debug build would abort instead, either way no validation of the
address range happens). -/
def new (cmd_type : CommandType) (win : Nat) (data : Option Data)
    (addr : Nat) : Option (List Nat) :=
  if 999 < win then none
  else
    let stx := 0x02
    let addrByte := (0x80 + addr) % 256
    let winBytes := format03 win
    let com := cmd_type.toByte
    let etx := 0x03
    let vec0 := build_vec stx addrByte winBytes com data etx [0x00, 0x00]
    let crc := calculate_crc ((vec0.drop 1).take (vec0.length - 3))
    some (build_vec stx addrByte winBytes com data etx crc)

/-- Embedding of `CommandPackage::new_read`. -/
def new_read (win : Nat) (addr : Nat) : Option (List Nat) :=
  new .Read win none addr

/-- Embedding of `CommandPackage::new_write`. -/
def new_write (win : Nat) (data : Data) (addr : Nat) : Option (List Nat) :=
  new .Write win (some data) addr

end CommandPackage

namespace ReadPackage

/-- Embedding of `ReadPackage::try_new`: reject frames shorter than 6 bytes
(error carries the offending bytes), recompute the checksum over
`data[1..len-2]` and compare with the received `data[len-2..]` (mismatch is
the distinct `ChecksumInvalid` error), and on success retain exactly
`data[2..len-3]` as the message body. -/
def try_new (data : List Nat) : Except InstrumentError (List Nat) :=
  if data.length < 6 then
    .error (.PackageInvalid data)
  else
    let crc_rec := data.drop (data.length - 2)
    let crc_exp := calculate_crc ((data.drop 1).take (data.length - 3))
    if crc_rec ≠ crc_exp then
      .error .ChecksumInvalid
    else
      .ok ((data.drop 2).take (data.length - 5))

/-- The fixed NACK reason table of `ReadPackage::ack_pkg`. -/
def ack_err_str (chk : Nat) : String :=
  if chk = 0x15 then "NACK"
  else if chk = 0x32 then "Unknown Window"
  else if chk = 0x33 then "Data Type Error"
  else if chk = 0x35 then "Win disabled"
  else "Unknown Error"

/-- Embedding of `ReadPackage::ack_pkg` on the retained body: reads
`data[0]` (a panic on an empty body, embedded as `none`; the source comment
notes the body of a parsed package is at least 1 byte), succeeds on `0x06`
and otherwise returns `NotAcknowledged` with the table reason. -/
def ack_pkg (data : List Nat) : Option (Except InstrumentError Unit) :=
  match data with
  | [] => none
  | chk :: _ =>
    some (if chk = 0x06 then .ok ()
          else .error (.NotAcknowledged (ack_err_str chk)))

end ReadPackage

/-- Rust `str::trim` removes whitespace bytes from both ends; on the ASCII
content this protocol produces, the whitespace characters are space, tab,
line feed and carriage return. -/
def isWhitespaceByte (b : Nat) : Bool := b == 32 || b == 9 || b == 10 || b == 13

/-- Byte-level embedding of `str::trim`: drop whitespace from the front,
then from the back. -/
def trimBytes (l : List Nat) : List Nat :=
  (((l.dropWhile isWhitespaceByte).reverse).dropWhile isWhitespaceByte).reverse

/-- Is this ASCII code a decimal digit? -/
def isDigitByte (b : Nat) : Bool := decide (48 ≤ b ∧ b ≤ 57)

/-- Parse a nonempty all-digit byte string as a natural number (the digit
loop of Rust `str::parse` for an unsigned sequence). -/
def parseNatDigits (l : List Nat) : Option Nat :=
  if l.isEmpty then none
  else if l.all isDigitByte then
    some (l.foldl (fun acc b => 10 * acc + (b - 48)) 0)
  else none

/-- Embedding of Rust `str::parse::<i64>` on the string's bytes: an optional
`'+'`/`'-'` sign followed by at least one decimal digit, with the i64
overflow check. -/
def parseI64 (l : List Nat) : Option Int :=
  let signed : Option Int :=
    match l with
    | [] => none
    | b :: rest =>
      if b = 43 then
        match parseNatDigits rest with
        | some n => some ((n : Int))
        | none => none
      else if b = 45 then
        match parseNatDigits rest with
        | some n => some (-(n : Int))
        | none => none
      else
        match parseNatDigits (b :: rest) with
        | some n => some ((n : Int))
        | none => none
  match signed with
  | some x =>
    if -9223372036854775808 ≤ x ∧ x ≤ 9223372036854775807 then some x
    else none
  | none => none

/-- The trim-and-parse step of `ReadPackage::int_pkg` applied to a numeric
data field: trim whitespace, then parse as a signed integer. -/
def decodeIntField (l : List Nat) : Option Int := parseI64 (trimBytes l)

/-- Is this byte a UTF-8 continuation byte (`0x80..=0xBF`)? -/
def utf8Cont (b : Nat) : Bool := decide (0x80 ≤ b ∧ b ≤ 0xBF)

/-- Fuel-driven UTF-8 validity check (RFC 3629 table, as enforced by Rust
`str::from_utf8`): ASCII bytes stand alone; `0xC2..=0xDF` start 2-byte
sequences; `0xE0..=0xEF` start 3-byte sequences with the usual
overlong/surrogate restrictions on the first continuation byte;
`0xF0..=0xF4` start 4-byte sequences.  The fuel only needs to cover the
list length, as each step consumes at least one byte. -/
def utf8ValidFuel : Nat → List Nat → Bool
  | _, [] => true
  | 0, _ :: _ => false
  | fuel + 1, b :: rest =>
    if b ≤ 0x7F then utf8ValidFuel fuel rest
    else if 0xC2 ≤ b ∧ b ≤ 0xDF then
      match rest with
      | c1 :: r => utf8Cont c1 && utf8ValidFuel fuel r
      | [] => false
    else if b = 0xE0 then
      match rest with
      | c1 :: c2 :: r =>
        decide (0xA0 ≤ c1 ∧ c1 ≤ 0xBF) && utf8Cont c2 && utf8ValidFuel fuel r
      | _ => false
    else if (0xE1 ≤ b ∧ b ≤ 0xEC) ∨ b = 0xEE ∨ b = 0xEF then
      match rest with
      | c1 :: c2 :: r => utf8Cont c1 && utf8Cont c2 && utf8ValidFuel fuel r
      | _ => false
    else if b = 0xED then
      match rest with
      | c1 :: c2 :: r =>
        decide (0x80 ≤ c1 ∧ c1 ≤ 0x9F) && utf8Cont c2 && utf8ValidFuel fuel r
      | _ => false
    else if b = 0xF0 then
      match rest with
      | c1 :: c2 :: c3 :: r =>
        decide (0x90 ≤ c1 ∧ c1 ≤ 0xBF) && utf8Cont c2 && utf8Cont c3 &&
          utf8ValidFuel fuel r
      | _ => false
    else if 0xF1 ≤ b ∧ b ≤ 0xF3 then
      match rest with
      | c1 :: c2 :: c3 :: r =>
        utf8Cont c1 && utf8Cont c2 && utf8Cont c3 && utf8ValidFuel fuel r
      | _ => false
    else if b = 0xF4 then
      match rest with
      | c1 :: c2 :: c3 :: r =>
        decide (0x80 ≤ c1 ∧ c1 ≤ 0x8F) && utf8Cont c2 && utf8Cont c3 &&
          utf8ValidFuel fuel r
      | _ => false
    else false

/-- Embedding of the validity check of Rust `str::from_utf8`. -/
def utf8Valid (l : List Nat) : Bool := utf8ValidFuel l.length l

/-- Render bytes as a Lean string (exact for the ASCII content this
protocol carries; used only for error payloads). -/
def bytesToString (l : List Nat) : String := String.mk (l.map Char.ofNat)

/-- ASCII lower-casing of a byte (`A..=Z ↦ a..=z`), used for the
case-insensitive special float literals. -/
def lowerByte (b : Nat) : Nat := if 65 ≤ b ∧ b ≤ 90 then b + 32 else b

/-- The special float literals `inf`, `infinity` and `nan` accepted by Rust
`str::parse::<f64>`, ASCII case-insensitively (sign already stripped). -/
def isInfNan (l : List Nat) : Bool :=
  let low := l.map lowerByte
  low = asciiBytes "inf" || low = asciiBytes "infinity" ||
    low = asciiBytes "nan"

/-- A valid f64 mantissa for Rust `str::parse::<f64>`: only decimal digits
and at most one dot, with at least one digit (so `"1."`, `".5"`, `"123.45"`
are accepted, `"."` and `""` are not). -/
def validMantissa (l : List Nat) : Bool :=
  (l.all fun b => isDigitByte b || b == 46) &&
    decide ((l.filter fun b => b == 46).length ≤ 1) &&
    decide (1 ≤ (l.filter isDigitByte).length)

/-- A valid f64 exponent part (after the `e`/`E`): optional sign, then at
least one decimal digit. -/
def validExpPart (l : List Nat) : Bool :=
  let digitsPart :=
    match l with
    | 43 :: r => r
    | 45 :: r => r
    | other => other
  !digitsPart.isEmpty && digitsPart.all isDigitByte

/-- Split a byte string at its first `e`/`E` (the exponent marker of a
float literal); returns the mantissa bytes and, when a marker exists, the
bytes after it. -/
def splitAtExp : List Nat → List Nat × Option (List Nat)
  | [] => ([], none)
  | b :: r =>
    if b = 101 ∨ b = 69 then ([], some r)
    else
      let (m, e) := splitAtExp r
      (b :: m, e)

/-- The accept/reject decision of Rust `str::parse::<f64>` on the string's
bytes: optional sign, then either a special literal (`inf`/`infinity`/`nan`,
case-insensitive) or a mantissa with an optional exponent part.  Only this
syntactic decision is embedded; the parsed f64 value itself is floating
point and is not modelled. -/
def rustF64Accepts (l : List Nat) : Bool :=
  let body :=
    match l with
    | 43 :: r => r
    | 45 :: r => r
    | other => other
  if isInfNan body then true
  else
    match splitAtExp body with
    | (m, none) => validMantissa m
    | (m, some e) => validMantissa m && validExpPart e

namespace ReadPackage

/-- Embedding of `ReadPackage::int_pkg`: slice the body from offset 4 (a
panic, embedded as `none`, when the body is shorter than 4 bytes), check
UTF-8 validity, trim and parse as `i64`; both failure modes are typed
`ResponseParseError` values. -/
def int_pkg (data : List Nat) : Option (Except InstrumentError Int) :=
  if data.length < 4 then none
  else
    let payload := data.drop 4
    some (if utf8Valid payload then
            match parseI64 (trimBytes payload) with
            | some v => .ok v
            | none => .error (.ResponseParseError (bytesToString payload))
          else .error (.ResponseParseError "Invalid UTF8"))

/-- Embedding of `ReadPackage::alphanumeric_pkg`: slice the body from offset
4 (a panic, embedded as `none`, when the body is shorter than 4 bytes),
check UTF-8 validity and return the trimmed text (as its bytes). -/
def alphanumeric_pkg (data : List Nat) : Option (Except InstrumentError (List Nat)) :=
  if data.length < 4 then none
  else
    let payload := data.drop 4
    some (if utf8Valid payload then .ok (trimBytes payload)
          else .error (.ResponseParseError "Invalid UTF8"))

/-- Embedding of `ReadPackage::float_pkg`: slice the body from offset 4 (a
panic, embedded as `none`, when the body is shorter than 4 bytes), check
UTF-8 validity, trim and parse as `f64`; both failure modes are typed
`ResponseParseError` values.  The f64 value produced by a successful parse
is floating point and is not modelled: the parse's accept/reject decision
is embedded via `rustF64Accepts`, and a success is represented by the
trimmed numeric text it would be parsed from. -/
def float_pkg (data : List Nat) : Option (Except InstrumentError (List Nat)) :=
  if data.length < 4 then none
  else
    let payload := data.drop 4
    some (if utf8Valid payload then
            if rustF64Accepts (trimBytes payload) then .ok (trimBytes payload)
            else .error (.ResponseParseError (bytesToString payload))
          else .error (.ResponseParseError "Invalid UTF8"))

end ReadPackage

end InstrumentRs

namespace InstrumentRs

theorem xorFold_lt_256_aux (l : List Nat) :
    ∀ acc, acc < 256 → (∀ b ∈ l, b < 256) →
      l.foldl (fun acc b => acc ^^^ b) acc < 256 := by
  induction l with
  | nil => intro acc hacc _; simpa using hacc
  | cons x t ih =>
    intro acc hacc hmem
    simp only [List.foldl_cons]
    exact ih (acc ^^^ x)
      (Nat.xor_lt_two_pow (n := 8) hacc (hmem x (by simp)))
      (fun b hb => hmem b (by simp [hb]))

theorem xorFold_lt_256 (l : List Nat) (h : ∀ b ∈ l, b < 256) :
    xorFold l < 256 :=
  xorFold_lt_256_aux l 0 (by omega) h

theorem isUpperHexDigit_hexDigit (d : Nat) (h : d < 16) :
    isUpperHexDigit (hexDigit d) := by
  unfold isUpperHexDigit hexDigit
  split <;> omega

theorem hexVal_hexDigit (d : Nat) (h : d < 16) : hexVal (hexDigit d) = d := by
  unfold hexVal hexDigit
  split <;> split <;> omega

/-- C2: on every byte slice (each byte a `u8`, i.e. below 256), the checksum
function returns exactly two bytes, both uppercase hexadecimal ASCII
characters, whose hexadecimal reading is the XOR-fold of the input with seed
0; it is a total function with no error case, and the example byte `0x33`
renders as the two ASCII characters `'3','3'`. -/
theorem crc_is_upper_hex_of_xor_fold_C2 (data : List Nat)
    (h : ∀ b ∈ data, b < 256) :
    ∃ c1 c2, calculate_crc data = [c1, c2] ∧
      isUpperHexDigit c1 ∧ isUpperHexDigit c2 ∧
      hexVal c1 * 16 + hexVal c2 = xorFold data ∧
      calculate_crc [0x33] = [0x33, 0x33] := by
  have hx : xorFold data < 256 := xorFold_lt_256 data h
  refine ⟨hexDigit (xorFold data / 16), hexDigit (xorFold data % 16),
    rfl, ?_, ?_, ?_, by decide⟩
  · exact isUpperHexDigit_hexDigit _ (by omega)
  · exact isUpperHexDigit_hexDigit _ (by omega)
  · rw [hexVal_hexDigit _ (by omega), hexVal_hexDigit _ (by omega)]
    omega

theorem crc_is_upper_hex_of_xor_fold_C2_witness :
    ∃ c1 c2, calculate_crc [0x80, 0x38] = [c1, c2] ∧
      isUpperHexDigit c1 ∧ isUpperHexDigit c2 ∧
      hexVal c1 * 16 + hexVal c2 = xorFold [0x80, 0x38] ∧
      calculate_crc [0x33] = [0x33, 0x33] :=
  crc_is_upper_hex_of_xor_fold_C2 [0x80, 0x38] (by decide)

/-- C1: the write command frame for window 11 with payload
`Data::from(true)` at device address 0, and the read command frame for
window 812 at device address 0, are byte-for-byte the literals from the
instrument manual. -/
theorem command_frame_literals_C1 :
    CommandPackage.new_write 11 (Data.fromBool true) 0 =
      some [0x02, 0x80, 0x30, 0x31, 0x31, 0x31, 0x31, 0x03, 0x42, 0x33] ∧
    CommandPackage.new_read 812 0 =
      some [0x02, 0x80, 0x38, 0x31, 0x32, 0x30, 0x03, 0x38, 0x38] := by
  decide

/-- C3: response parsing rejects exactly the frames shorter than 6 bytes
with the frame-too-short error carrying the offending bytes; on longer
frames it fails with the distinct `ChecksumInvalid` error exactly when the
checksum recomputed over `raw[1..len-2]` differs from the received
`raw[len-2..]`; and on success it retains exactly `raw[2..len-3]` as the
message body. -/
theorem try_new_frame_validation_C3 (raw : List Nat) :
    (raw.length < 6 →
      ReadPackage.try_new raw = .error (.PackageInvalid raw)) ∧
    (6 ≤ raw.length →
      (ReadPackage.try_new raw = .error .ChecksumInvalid ↔
        raw.drop (raw.length - 2) ≠
          calculate_crc ((raw.drop 1).take (raw.length - 3))) ∧
      (raw.drop (raw.length - 2) =
          calculate_crc ((raw.drop 1).take (raw.length - 3)) →
        ReadPackage.try_new raw = .ok ((raw.drop 2).take (raw.length - 5)))) := by
  refine ⟨fun h => by simp [ReadPackage.try_new, h], fun h => ?_⟩
  by_cases hc : raw.drop (raw.length - 2) =
      calculate_crc ((raw.drop 1).take (raw.length - 3))
  · simp [ReadPackage.try_new, hc, Nat.not_lt.mpr h]
  · simp [ReadPackage.try_new, hc, Nat.not_lt.mpr h]

theorem try_new_frame_validation_C3_witness :
    ReadPackage.try_new [0, 1, 2] = .error (.PackageInvalid [0, 1, 2]) ∧
    ReadPackage.try_new [2, 6, 6, 6, 48, 54] = .ok [6] :=
  ⟨(try_new_frame_validation_C3 [0, 1, 2]).1 (by decide),
   ((try_new_frame_validation_C3 [2, 6, 6, 6, 48, 54]).2 (by decide)).2
     (by decide)⟩

end InstrumentRs

namespace InstrumentRs

theorem try_new_ok_shape (raw body : List Nat)
    (h : ReadPackage.try_new raw = .ok body) :
    6 ≤ raw.length ∧ body = (raw.drop 2).take (raw.length - 5) ∧
      1 ≤ body.length := by
  simp only [ReadPackage.try_new] at h
  split at h
  · exact absurd h (by simp)
  · rename_i h6
    split at h
    · exact absurd h (by simp)
    · injection h with h
      refine ⟨by omega, h.symm, ?_⟩
      rw [← h]
      simp only [List.length_take, List.length_drop]
      omega

/-- C7: alphanumeric encoding succeeds, passing the bytes through unchanged,
if and only if the input is at most 48 bytes long and every byte lies in
`0x20..=0x5F`; any longer input is rejected, any input containing a
lowercase letter is rejected, and `"HELLO_123"` passes through unchanged. -/
theorem alphanumeric_passthrough_C7 :
    (∀ value : List Nat,
      (∃ d, Data.tryFromStr value = .ok d ∧ d.data_vec = value) ↔
        (value.length ≤ 48 ∧ ∀ b ∈ value, 0x20 ≤ b ∧ b ≤ 0x5F)) ∧
    (∀ value : List Nat, 48 < value.length →
      ∃ e, Data.tryFromStr value = .error e) ∧
    (∀ value : List Nat, ∀ b ∈ value, 97 ≤ b → b ≤ 122 →
      ∃ e, Data.tryFromStr value = .error e) ∧
    Data.tryFromStr (asciiBytes "HELLO_123") =
      .ok ⟨asciiBytes "HELLO_123"⟩ := by
  refine ⟨fun value => ?_, fun value h => ?_, fun value b hb h97 h122 => ?_,
    by decide⟩
  · by_cases h1 : 48 < value.length
    · simp only [Data.tryFromStr, if_pos h1]
      constructor
      · rintro ⟨d, hd, -⟩
        simp at hd
      · rintro ⟨hlen, -⟩
        omega
    · cases hall : value.all fun b => decide (32 ≤ b ∧ b ≤ 95) with
      | true =>
        simp only [Data.tryFromStr]
        rw [if_neg h1, if_neg (by rw [hall]; decide)]
        constructor
        · rintro -
          refine ⟨by omega, fun b hb => ?_⟩
          simpa using List.all_eq_true.mp hall b hb
        · rintro -
          exact ⟨⟨value⟩, rfl, rfl⟩
      | false =>
        simp only [Data.tryFromStr]
        rw [if_neg h1, if_pos (by rw [hall]; decide)]
        constructor
        · rintro ⟨d, hd, -⟩
          simp at hd
        · rintro ⟨-, hmem⟩
          have hT : (value.all fun b => decide (32 ≤ b ∧ b ≤ 95)) = true :=
            List.all_eq_true.mpr fun b hb => by simpa using hmem b hb
          rw [hall] at hT
          cases hT
  · unfold Data.tryFromStr
    rw [if_pos h]
    exact ⟨_, rfl⟩
  · have hF : (value.all fun b => decide (32 ≤ b ∧ b ≤ 95)) = false := by
      cases hx : value.all fun b => decide (32 ≤ b ∧ b ≤ 95) with
      | true =>
        have := List.all_eq_true.mp hx b hb
        simp at this
        omega
      | false => rfl
    unfold Data.tryFromStr
    by_cases h1 : 48 < value.length
    · rw [if_pos h1]
      exact ⟨_, rfl⟩
    · rw [if_neg h1, if_pos (by rw [hF]; decide)]
      exact ⟨_, rfl⟩

theorem alphanumeric_passthrough_C7_witness :
    (∃ e, Data.tryFromStr (List.replicate 49 65) = .error e) ∧
    (∃ e, Data.tryFromStr [104, 105] = .error e) :=
  ⟨(alphanumeric_passthrough_C7).2.1 (List.replicate 49 65) (by decide),
   (alphanumeric_passthrough_C7).2.2.1 [104, 105] 104 (by decide) (by decide)
     (by decide)⟩

end InstrumentRs

namespace InstrumentRs

/-- C8: on the body of every successfully parsed response packet, the
acknowledgment accessor returns (never panics), succeeds exactly when the
first retained byte is `0x06`, and otherwise yields `NotAcknowledged` with
the reason from the fixed table (`0x15 ↦ "NACK"`, `0x32 ↦ "Unknown Window"`,
`0x33 ↦ "Data Type Error"`, `0x35 ↦ "Win disabled"`, every other byte
`↦ "Unknown Error"`). -/
theorem ack_decoding_table_C8 (raw body : List Nat)
    (h : ReadPackage.try_new raw = .ok body) :
    ∃ chk rest, body = chk :: rest ∧
      ReadPackage.ack_pkg body =
        some (if chk = 0x06 then .ok ()
              else .error (.NotAcknowledged (ReadPackage.ack_err_str chk))) ∧
      (ReadPackage.ack_pkg body = some (.ok ()) ↔ chk = 0x06) ∧
      ReadPackage.ack_err_str 0x15 = "NACK" ∧
      ReadPackage.ack_err_str 0x32 = "Unknown Window" ∧
      ReadPackage.ack_err_str 0x33 = "Data Type Error" ∧
      ReadPackage.ack_err_str 0x35 = "Win disabled" ∧
      (∀ c, c ≠ 0x15 → c ≠ 0x32 → c ≠ 0x33 → c ≠ 0x35 →
        ReadPackage.ack_err_str c = "Unknown Error") := by
  obtain ⟨h6, hbody, hlen⟩ := try_new_ok_shape raw body h
  cases body with
  | nil => simp at hlen
  | cons chk rest =>
    refine ⟨chk, rest, rfl, rfl, ?_, rfl, rfl, rfl, rfl, ?_⟩
    · by_cases hchk : chk = 0x06
      · simp [ReadPackage.ack_pkg, hchk]
      · simp [ReadPackage.ack_pkg, hchk]
    · intro c hc1 hc2 hc3 hc4
      simp [ReadPackage.ack_err_str, hc1, hc2, hc3, hc4]

theorem ack_decoding_table_C8_witness :
    ∃ chk rest, ([0x32] : List Nat) = chk :: rest ∧
      ReadPackage.ack_pkg [0x32] =
        some (if chk = 0x06 then .ok ()
              else .error (.NotAcknowledged (ReadPackage.ack_err_str chk))) ∧
      (ReadPackage.ack_pkg [0x32] = some (.ok ()) ↔ chk = 0x06) ∧
      ReadPackage.ack_err_str 0x15 = "NACK" ∧
      ReadPackage.ack_err_str 0x32 = "Unknown Window" ∧
      ReadPackage.ack_err_str 0x33 = "Data Type Error" ∧
      ReadPackage.ack_err_str 0x35 = "Win disabled" ∧
      (∀ c, c ≠ 0x15 → c ≠ 0x32 → c ≠ 0x33 → c ≠ 0x35 →
        ReadPackage.ack_err_str c = "Unknown Error") :=
  ack_decoding_table_C8 [0x02, 0x32, 0x32, 0x32, 0x33, 0x32] [0x32] (by decide)

/-- C10: packet construction performs no validation of the device address:
for every `u8` address the construction succeeds, the frame's second byte is
`(0x80 + addr) % 256` (`u8` wrapping arithmetic), addresses `32..=127` are
silently accepted and give address bytes above `0x9F` (outside the
documented `0..=31` device domain), and addresses `128..=255` overflow the
`u8` addition. -/
theorem address_byte_unvalidated_C10 (addr : Nat) (h : addr < 256) :
    (∀ t : CommandType, ∀ win : Nat, ∀ d : Option Data, win ≤ 999 →
      ∃ v, CommandPackage.new t win d addr = some v ∧
        v.get? 1 = some ((0x80 + addr) % 256)) ∧
    (32 ≤ addr → addr ≤ 127 →
      (0x80 + addr) % 256 = 0x80 + addr ∧ 0x9F < 0x80 + addr) ∧
    (128 ≤ addr → 256 ≤ 0x80 + addr ∧ (0x80 + addr) % 256 = addr - 128) := by
  refine ⟨fun t win d hw => ?_, fun h1 h2 => ⟨?_, by omega⟩,
    fun h1 => ⟨by omega, ?_⟩⟩
  · unfold CommandPackage.new
    rw [if_neg (by omega)]
    exact ⟨_, rfl, rfl⟩
  · have : 0x80 + addr < 256 := by omega
    omega
  · omega

theorem address_byte_unvalidated_C10_witness :
    (∀ t : CommandType, ∀ win : Nat, ∀ d : Option Data, win ≤ 999 →
      ∃ v, CommandPackage.new t win d 200 = some v ∧
        v.get? 1 = some ((0x80 + 200) % 256)) ∧
    (32 ≤ 200 → 200 ≤ 127 →
      (0x80 + 200) % 256 = 0x80 + 200 ∧ 0x9F < 0x80 + 200) ∧
    (128 ≤ 200 → 256 ≤ 0x80 + 200 ∧ (0x80 + 200) % 256 = 200 - 128) :=
  address_byte_unvalidated_C10 200 (by decide)

/-- C4 as stated is false on the code: the frame
`[0x02,0x06,0x06,0x06,0x30,0x36]` is a successfully constructed response
packet (its checksum over bytes 1..=3 is `0x06`, rendered `"06"`), its
retained body is the single byte `[0x06]`, and on that body each typed
accessor — `int_pkg`, `float_pkg` and `alphanumeric_pkg` — hits the
out-of-bounds slice `data[4..]`: a panic (embedded as `none`), not a typed
`Result`. -/
theorem accessor_panic_C4_counterexample :
    ReadPackage.try_new [0x02, 0x06, 0x06, 0x06, 0x30, 0x36] = .ok [0x06] ∧
    ReadPackage.int_pkg [0x06] = none ∧
    ReadPackage.float_pkg [0x06] = none ∧
    ReadPackage.alphanumeric_pkg [0x06] = none := by
  decide

/-- C4, amended: window-out-of-bounds at packet construction panics exactly
when `win > 999`; the acknowledgment accessor never panics on the body of a
parsed packet; and the typed accessors `int_pkg`, `float_pkg` and
`alphanumeric_pkg` return a typed `Result` and never panic provided the
retained body is at least 4 bytes long (bodies shorter than 4 bytes make
their `data[4..]` slice panic, as the counterexample shows). -/
theorem accessor_no_panic_C4 :
    (∀ win addr, win ≤ 999 → ∃ v, CommandPackage.new_read win addr = some v) ∧
    (∀ win addr, 999 < win → CommandPackage.new_read win addr = none) ∧
    (∀ win d addr, win ≤ 999 →
      ∃ v, CommandPackage.new_write win d addr = some v) ∧
    (∀ win d addr, 999 < win → CommandPackage.new_write win d addr = none) ∧
    (∀ body : List Nat, 4 ≤ body.length →
      ∃ r, ReadPackage.int_pkg body = some r) ∧
    (∀ body : List Nat, 4 ≤ body.length →
      ∃ r, ReadPackage.float_pkg body = some r) ∧
    (∀ body : List Nat, 4 ≤ body.length →
      ∃ r, ReadPackage.alphanumeric_pkg body = some r) ∧
    (∀ raw body, ReadPackage.try_new raw = .ok body →
      ∃ r, ReadPackage.ack_pkg body = some r) := by
  refine ⟨fun win addr hw => ?_, fun win addr hw => ?_,
    fun win d addr hw => ?_, fun win d addr hw => ?_,
    fun body hb => ?_, fun body hb => ?_, fun body hb => ?_,
    fun raw body h => ?_⟩
  · unfold CommandPackage.new_read CommandPackage.new
    rw [if_neg (by omega)]
    exact ⟨_, rfl⟩
  · unfold CommandPackage.new_read CommandPackage.new
    rw [if_pos (by omega)]
  · unfold CommandPackage.new_write CommandPackage.new
    rw [if_neg (by omega)]
    exact ⟨_, rfl⟩
  · unfold CommandPackage.new_write CommandPackage.new
    rw [if_pos (by omega)]
  · unfold ReadPackage.int_pkg
    rw [if_neg (by omega)]
    exact ⟨_, rfl⟩
  · unfold ReadPackage.float_pkg
    rw [if_neg (by omega)]
    exact ⟨_, rfl⟩
  · unfold ReadPackage.alphanumeric_pkg
    rw [if_neg (by omega)]
    exact ⟨_, rfl⟩
  · obtain ⟨h6, hbody, hlen⟩ := try_new_ok_shape raw body h
    cases body with
    | nil => simp at hlen
    | cons chk rest => exact ⟨_, rfl⟩

theorem accessor_no_panic_C4_witness :
    (∃ v, CommandPackage.new_read 812 0 = some v) ∧
    (∃ r, ReadPackage.int_pkg [48, 49, 48, 48, 52, 50] = some r) ∧
    (∃ r, ReadPackage.float_pkg [48, 49, 48, 48, 52, 50] = some r) :=
  ⟨accessor_no_panic_C4.1 812 0 (by decide),
   accessor_no_panic_C4.2.2.2.2.1 [48, 49, 48, 48, 52, 50] (by decide),
   accessor_no_panic_C4.2.2.2.2.2.1 [48, 49, 48, 48, 52, 50] (by decide)⟩

/-- C9 names a property the code does not have: the out-of-range error from
integer encoding carries the literal bounds `min = -10000, max = 100000`,
which are not the valid bounds of the encoding domain — values `999999`
(above the reported max) and `-99999` (below the reported min) are accepted
by the same encoder.  The error type's own documentation says the fields are
"the minimum/maximum value that is allowed", so the carried bounds are a
slip (the actual guards are `-100_000` and `1_000_000` exclusive). -/
theorem int_bounds_misreported_C9 :
    Data.tryFromInt 1000000 =
      .error (.IntValueOutOfRange 1000000 (-10000) 100000) ∧
    Data.tryFromInt (-100000) =
      .error (.IntValueOutOfRange (-100000) (-10000) 100000) ∧
    Data.tryFromInt 999999 = .ok ⟨[57, 57, 57, 57, 57, 57]⟩ ∧
    Data.tryFromInt 500000 = .ok ⟨[53, 48, 48, 48, 48, 48]⟩ ∧
    Data.tryFromInt (-99999) = .ok ⟨[45, 57, 57, 57, 57, 57]⟩ ∧
    ((100000 : Int) < 999999 ∧ (-99999 : Int) < -10000) := by
  decide

end InstrumentRs

namespace InstrumentRs

theorem dropWhile_eq_self_of_not (p : Nat → Bool) (l : List Nat)
    (h : ∀ b ∈ l, p b = false) : l.dropWhile p = l := by
  cases l with
  | nil => rfl
  | cons a t => simp [List.dropWhile_cons, h a (by simp)]

theorem trimBytes_eq_self (l : List Nat)
    (h : ∀ b ∈ l, isWhitespaceByte b = false) : trimBytes l = l := by
  unfold trimBytes
  rw [dropWhile_eq_self_of_not _ l h,
    dropWhile_eq_self_of_not _ l.reverse
      (fun b hb => h b (List.mem_reverse.mp hb)),
    List.reverse_reverse]

theorem trim_formatI06 (v : Int) : trimBytes (formatI06 v) = formatI06 v := by
  apply trimBytes_eq_self
  intro b hb
  have h45 : 45 ≤ b := by
    unfold formatI06 formatNat6 at hb
    split at hb <;> simp at hb <;> omega
  simp only [isWhitespaceByte]
  simp
  omega

theorem formatI06_length (v : Int) : (formatI06 v).length = 6 := by
  unfold formatI06 formatNat6
  split <;> simp

theorem parseNatDigits_digits6 (n : Nat) (h : n ≤ 999999) :
    parseNatDigits [48 + n / 100000 % 10, 48 + n / 10000 % 10,
      48 + n / 1000 % 10, 48 + n / 100 % 10, 48 + n / 10 % 10,
      48 + n % 10] = some n := by
  unfold parseNatDigits
  rw [if_neg (by simp), if_pos ?hall]
  case hall =>
    simp only [List.all_cons, List.all_nil, isDigitByte, Bool.and_true,
      Bool.and_eq_true, decide_eq_true_eq]
    omega
  simp only [List.foldl_cons, List.foldl_nil]
  congr 1
  omega

theorem parseNatDigits_digits5 (m : Nat) (h : m ≤ 99999) :
    parseNatDigits [48 + m / 10000 % 10, 48 + m / 1000 % 10,
      48 + m / 100 % 10, 48 + m / 10 % 10, 48 + m % 10] = some m := by
  unfold parseNatDigits
  rw [if_neg (by simp), if_pos ?hall]
  case hall =>
    simp only [List.all_cons, List.all_nil, isDigitByte, Bool.and_true,
      Bool.and_eq_true, decide_eq_true_eq]
    omega
  simp only [List.foldl_cons, List.foldl_nil]
  congr 1
  omega

theorem parse_formatI06 (v : Int) (h1 : -99999 ≤ v) (h2 : v ≤ 999999) :
    parseI64 (formatI06 v) = some v := by
  by_cases hv : v < 0
  · have hm : v.natAbs ≤ 99999 := by omega
    rw [show formatI06 v = 45 :: [48 + v.natAbs / 10000 % 10,
        48 + v.natAbs / 1000 % 10, 48 + v.natAbs / 100 % 10,
        48 + v.natAbs / 10 % 10, 48 + v.natAbs % 10] from by
      unfold formatI06
      rw [if_pos hv]]
    simp only [parseI64]
    rw [parseNatDigits_digits5 v.natAbs hm,
      if_neg (show ¬((45 : Nat) = 43) by decide), if_pos trivial]
    simp only []
    rw [if_pos (show -9223372036854775808 ≤ -(v.natAbs : Int) ∧
      -(v.natAbs : Int) ≤ 9223372036854775807 by omega)]
    congr 1
    omega
  · rw [show formatI06 v = [48 + v.natAbs / 100000 % 10,
        48 + v.natAbs / 10000 % 10, 48 + v.natAbs / 1000 % 10,
        48 + v.natAbs / 100 % 10, 48 + v.natAbs / 10 % 10,
        48 + v.natAbs % 10] from by
      unfold formatI06 formatNat6
      rw [if_neg hv]]
    simp only [parseI64]
    rw [if_neg (show ¬(48 + v.natAbs / 100000 % 10 = 43) by omega),
      if_neg (show ¬(48 + v.natAbs / 100000 % 10 = 45) by omega),
      parseNatDigits_digits6 v.natAbs (by omega)]
    simp only []
    rw [if_pos (show -9223372036854775808 ≤ ((v.natAbs : Nat) : Int) ∧
      ((v.natAbs : Nat) : Int) ≤ 9223372036854775807 by omega)]
    congr 1
    omega

/-- C5: integer encoding succeeds on exactly the domain `-99999..=999999`,
producing the zero-padded 6-byte field `format!("{:06}", v)`, and decoding
that field (trim whitespace, then parse as a signed integer) yields `v`
back; every value `>= 1_000_000` or `<= -100_000` fails encoding; and the
worked examples `12345 ↦ "012345"`, `-12345 ↦ "-12345"`, `0 ↦ "000000"`,
`999999 ↦ "999999"` hold byte-exactly. -/
theorem int_encode_roundtrip_C5 :
    (∀ v : Int, -99999 ≤ v → v ≤ 999999 →
      Data.tryFromInt v = .ok ⟨formatI06 v⟩ ∧
      (formatI06 v).length = 6 ∧
      decodeIntField (formatI06 v) = some v) ∧
    (∀ v : Int, 1000000 ≤ v ∨ v ≤ -100000 →
      Data.tryFromInt v = .error (.IntValueOutOfRange v (-10000) 100000)) ∧
    Data.tryFromInt 12345 = .ok ⟨asciiBytes "012345"⟩ ∧
    Data.tryFromInt (-12345) = .ok ⟨asciiBytes "-12345"⟩ ∧
    Data.tryFromInt 0 = .ok ⟨asciiBytes "000000"⟩ ∧
    Data.tryFromInt 999999 = .ok ⟨asciiBytes "999999"⟩ := by
  refine ⟨fun v hv1 hv2 => ⟨?_, formatI06_length v, ?_⟩, fun v hv => ?_,
    by decide, by decide, by decide, by decide⟩
  · unfold Data.tryFromInt
    rw [if_neg (by omega)]
  · unfold decodeIntField
    rw [trim_formatI06]
    exact parse_formatI06 v hv1 hv2
  · unfold Data.tryFromInt
    rw [if_pos hv]

theorem int_encode_roundtrip_C5_witness :
    (Data.tryFromInt 42 = .ok ⟨formatI06 42⟩ ∧
      (formatI06 42).length = 6 ∧
      decodeIntField (formatI06 42) = some 42) ∧
    Data.tryFromInt 1000000 =
      .error (.IntValueOutOfRange 1000000 (-10000) 100000) :=
  ⟨int_encode_roundtrip_C5.1 42 (by omega) (by omega),
   int_encode_roundtrip_C5.2.1 1000000 (by omega)⟩

end InstrumentRs
